import Mathlib

/-
Verification of the Markdown → Feishu docx block converter
(src/markdown-converter.ts and src/docx-blocks.ts).

Strings are modelled as `List Char`.  JavaScript string primitives
(trim, startsWith, split, join, includes, padEnd, repeat, toLowerCase)
are embedded below over the ASCII whitespace subset that the converter
ever meets (inputs are split on a single newline, so individual lines
never contain a newline).  Regular expressions of the source are
embedded as explicit deterministic matchers; each matcher's doc comment
quotes the regex it implements.

The source's outer `while` loop over the line array is not structurally
recursive (and, as proved below, genuinely diverges on some inputs), so
it is modelled with an explicit fuel parameter; one iteration of the
loop body is the separate total function `parseStep`, and every
iteration that makes progress consumes at least one line, so fuel
`lines.length + 1` reproduces the source exactly on every input on
which the source terminates.
-/

/-- ASCII whitespace, the subset of the JavaScript `\s` / `trim`
whitespace classes that can occur in the converter's data. -/
def isWsChar (c : Char) : Bool :=
  c == ' ' || c == '\t' || c == '\n' || c == '\r' || c == '\x0b' || c == '\x0c'

/-- JavaScript `String.prototype.trim` (ASCII subset). -/
def strTrim (s : List Char) : List Char :=
  ((s.dropWhile isWsChar).reverse.dropWhile isWsChar).reverse

/-- JavaScript `String.prototype.startsWith`. -/
def strStartsWith : List Char → List Char → Bool
  | _, [] => true
  | [], _ :: _ => false
  | c :: cs, p :: ps => c == p && strStartsWith cs ps

/-- JavaScript `s.split("\n")` (empty pieces kept, `"" ↦ [""]`). -/
def splitNl : List Char → List (List Char)
  | [] => [[]]
  | '\n' :: r => [] :: splitNl r
  | c :: r =>
    match splitNl r with
    | [] => [[c]]
    | l :: ls => (c :: l) :: ls

/-- JavaScript `s.split("|")`. -/
def splitPipe : List Char → List (List Char)
  | [] => [[]]
  | '|' :: r => [] :: splitPipe r
  | c :: r =>
    match splitPipe r with
    | [] => [[c]]
    | l :: ls => (c :: l) :: ls

/-- JavaScript `Array.prototype.join` with a one-character separator. -/
def joinWith (sep : Char) : List (List Char) → List Char
  | [] => []
  | [l] => l
  | l :: l2 :: ls => l ++ sep :: joinWith sep (l2 :: ls)

/-- JavaScript `"-".repeat(n)` and friends. -/
def repChar (n : Nat) (c : Char) : List Char := List.replicate n c

/-- JavaScript `String.prototype.padEnd` with spaces. -/
def padEnd (s : List Char) (w : Nat) : List Char :=
  s ++ List.replicate (w - s.length) ' '

/-- JavaScript `String.prototype.toLowerCase` on one ASCII character. -/
def charLower (c : Char) : Char :=
  if 65 ≤ c.toNat ∧ c.toNat ≤ 90 then Char.ofNat (c.toNat + 32) else c

/-- JavaScript `String.prototype.toLowerCase` (ASCII subset). -/
def toLowerL (s : List Char) : List Char := s.map charLower

/-- The backtick character, written by code point to keep it out of the
source text. -/
def btChar : Char := Char.ofNat 96

/-- The code-fence delimiter ```` ``` ````. -/
def threeTicks : List Char := [btChar, btChar, btChar]

/-! ## Data model (docx-blocks.ts) -/

/-- `TextElement.text_run.style` of docx-blocks.ts: five optional
boolean flags; the converter only ever sets `bold`. -/
structure TextStyle where
  bold : Option Bool := none
  italic : Option Bool := none
  underline : Option Bool := none
  strikethrough : Option Bool := none
  code : Option Bool := none
  deriving DecidableEq, Repr

/-- `TextElement` of docx-blocks.ts: a text run with optional style, or
a link with url and content. -/
inductive TextElement where
  | text_run (content : List Char) (style : Option TextStyle)
  | link (url : List Char) (content : List Char)
  deriving DecidableEq, Repr

/-- `code.style` of a `DocBlock`: the optional numeric language code. -/
structure CodeStyle where
  language : Option Nat := none
  deriving DecidableEq, Repr

/-- `code` payload of a `DocBlock`. -/
structure CodeBody where
  elements : List TextElement
  style : Option CodeStyle := none
  deriving DecidableEq, Repr

/-- `DocBlock` of docx-blocks.ts: a numeric `block_type` plus one
optional payload per supported variant (the source interface's optional
fields). -/
structure DocBlock where
  block_type : Nat
  text : Option (List TextElement) := none
  heading1 : Option (List TextElement) := none
  heading2 : Option (List TextElement) := none
  heading3 : Option (List TextElement) := none
  bullet : Option (List TextElement) := none
  ordered : Option (List TextElement) := none
  code : Option CodeBody := none
  quote : Option (List TextElement) := none
  divider : Bool := false
  deriving DecidableEq, Repr

/-- `MarkdownNode` of markdown-converter.ts (tag plus the fields each
tag actually carries; `list` items are themselves nodes of tag
`text`). -/
inductive MarkdownNode where
  | heading (level : Nat) (content : List Char)
  | paragraph (content : List Char)
  | code (language : Option (List Char)) (content : List Char)
  | quote (content : List Char)
  | divider
  | list (ordered : Bool) (items : List MarkdownNode)
  | table (rows : List (List (List Char)))
  | text (content : List Char)

/-- `node.content || ""`: the `content` field of a node, or the empty
string for the tags that do not carry one. -/
def MarkdownNode.contentD : MarkdownNode → List Char
  | .heading _ c => c
  | .paragraph c => c
  | .code _ c => c
  | .quote c => c
  | .divider => []
  | .list _ _ => []
  | .table _ => []
  | .text c => c

/-- `SUPPORTED_BLOCK_TYPES` of docx-blocks.ts. -/
def SUPPORTED_BLOCK_TYPES : List Nat := [2, 3, 4, 5, 12, 13, 14, 15, 16, 22, 23]

/-- `LANGUAGE_MAP` of docx-blocks.ts: the static language-alias table. -/
def LANGUAGE_MAP : List (List Char × Nat) :=
  [ ( "plaintext".data, 0), ( "text".data, 0), ( "abap".data, 1), ( "ada".data, 2),
    ( "apache".data, 3), ( "apex".data, 4), ( "applescript".data, 5), ( "aql".data, 6),
    ( "arduino".data, 7), ( "armasm".data, 8), ( "asciidoc".data, 9), ( "aspnet".data, 10),
    ( "autohotkey".data, 11), ( "autoit".data, 12), ( "bash".data, 13), ( "shell".data, 13),
    ( "sh".data, 13), ( "basic".data, 14), ( "batch".data, 15), ( "bat".data, 15),
    ( "cmd".data, 15), ( "bison".data, 16), ( "bnf".data, 17), ( "brainfuck".data, 18),
    ( "c".data, 19), ( "cs".data, 20), ( "csharp".data, 20), ( "cpp".data, 21),
    ( "c++".data, 21), ( "cmake".data, 22), ( "coffeescript".data, 23), ( "coffee".data, 23),
    ( "cos".data, 24), ( "css".data, 25), ( "d".data, 26), ( "dart".data, 27),
    ( "diff".data, 28), ( "django".data, 29), ( "dns".data, 30), ( "docker".data, 31),
    ( "dockerfile".data, 31), ( "dos".data, 32), ( "elixir".data, 33), ( "elm".data, 34),
    ( "erb".data, 35), ( "erlang".data, 36), ( "fortran".data, 37), ( "fsharp".data, 38),
    ( "fs".data, 38), ( "gherkin".data, 39), ( "go".data, 40), ( "golang".data, 40),
    ( "gradle".data, 41), ( "graphql".data, 42), ( "groovy".data, 43), ( "haml".data, 44),
    ( "handlebars".data, 45), ( "hbs".data, 45), ( "haskell".data, 46), ( "haxe".data, 47),
    ( "html".data, 48), ( "http".data, 49), ( "ini".data, 50), ( "toml".data, 50),
    ( "java".data, 51), ( "javascript".data, 52), ( "js".data, 52), ( "json".data, 53),
    ( "julia".data, 54), ( "kotlin".data, 55), ( "kt".data, 55), ( "latex".data, 56),
    ( "less".data, 57), ( "lisp".data, 58), ( "livescript".data, 59), ( "lua".data, 60),
    ( "makefile".data, 61), ( "markdown".data, 62), ( "md".data, 62), ( "matlab".data, 63),
    ( "nginx".data, 64), ( "nim".data, 65), ( "nix".data, 66), ( "objectivec".data, 67),
    ( "objc".data, 67), ( "ocaml".data, 68), ( "pascal".data, 69), ( "perl".data, 70),
    ( "php".data, 71), ( "powershell".data, 72), ( "ps".data, 72), ( "ps1".data, 72),
    ( "prolog".data, 73), ( "protobuf".data, 74), ( "puppet".data, 75), ( "python".data, 76),
    ( "py".data, 76), ( "r".data, 77), ( "ruby".data, 78), ( "rb".data, 78),
    ( "rust".data, 79), ( "sass".data, 80), ( "scala".data, 81), ( "scheme".data, 82),
    ( "scss".data, 83), ( "smalltalk".data, 84), ( "sql".data, 85), ( "stylus".data, 86),
    ( "swift".data, 87), ( "tcl".data, 88), ( "tex".data, 89), ( "typescript".data, 90),
    ( "ts".data, 90), ( "vbnet".data, 91), ( "vb".data, 91), ( "verilog".data, 92),
    ( "vhdl".data, 93), ( "vim".data, 94), ( "xml".data, 95), ( "yaml".data, 96),
    ( "yml".data, 96) ]

/-- First-match lookup in `LANGUAGE_MAP` (JavaScript property access on
the literal object). -/
def lookupLang (l : List Char) : Option Nat :=
  (LANGUAGE_MAP.find? (fun kv => kv.1 == l)).map (·.2)

/-- `getLanguageCode` of docx-blocks.ts: `if (!lang) return 0; return
LANGUAGE_MAP[lang.toLowerCase()] ?? 0` (`none` is `undefined`, and the
empty string is also falsy). -/
def getLanguageCode (lang : Option (List Char)) : Nat :=
  match lang with
  | none => 0
  | some l => if l = [] then 0 else (lookupLang (toLowerL l)).getD 0

/-! ## Inline stylizer (parseInlineMarkdown / parseTextWithStyles) -/

/-- Attempt to match the link regex `\[([^\]]+)\]\(([^)]+)\)` at the
start of the input; on success return (group1, group2, rest-of-input).
Both character classes are matched greedily; since neither class can
contain its closing delimiter, the match is deterministic, exactly as
for the JavaScript engine. -/
def tryLink : List Char → Option (List Char × List Char × List Char)
  | '[' :: cs =>
    let g1 := cs.takeWhile (fun c => c != ']')
    if g1.isEmpty then none
    else
      match cs.dropWhile (fun c => c != ']') with
      | ']' :: '(' :: cs2 =>
        let g2 := cs2.takeWhile (fun c => c != ')')
        if g2.isEmpty then none
        else
          match cs2.dropWhile (fun c => c != ')') with
          | ')' :: rest => some (g1, g2, rest)
          | _ => none
      | _ => none
  | _ => none

/-- Leftmost match of the link regex: scan start positions left to
right (JavaScript `exec` on a `/g` regex); on success return
(text-before-match, group1, group2, rest-after-match). -/
def findLink : List Char → Option (List Char × List Char × List Char × List Char)
  | [] => none
  | c :: cs =>
    match tryLink (c :: cs) with
    | some (g1, g2, rest) => some ([], g1, g2, rest)
    | none =>
      match findLink cs with
      | some (b, g1, g2, rest) => some (c :: b, g1, g2, rest)
      | none => none

/-- Attempt to match the bold regex `\*\*([^*]+)\*\*` at the start of
the input; on success return (group1, rest-of-input). -/
def tryBold : List Char → Option (List Char × List Char)
  | '*' :: '*' :: cs =>
    let g := cs.takeWhile (fun c => c != '*')
    if g.isEmpty then none
    else
      match cs.dropWhile (fun c => c != '*') with
      | '*' :: '*' :: rest => some (g, rest)
      | _ => none
  | _ => none

/-- Leftmost match of the bold regex; on success return
(text-before-match, group1, rest-after-match). -/
def findBold : List Char → Option (List Char × List Char × List Char)
  | [] => none
  | c :: cs =>
    match tryBold (c :: cs) with
    | some (g, rest) => some ([], g, rest)
    | none =>
      match findBold cs with
      | some (b, g, rest) => some (c :: b, g, rest)
      | none => none

/-- The only style object the converter ever builds: `{ bold: true }`. -/
def boldStyleVal : TextStyle := { bold := some true }

/-- The bold-scanning `while ((match = boldRegex.exec(text)))` loop of
`parseTextWithStyles`: before-match text (when non-empty) becomes an
unstyled run, the group becomes a bold run, and the trailing text after
the last match (when non-empty) becomes one unstyled run.  Fuel bounds
the iteration count; every match consumes at least four characters, so
`text.length + 1` fuel is always enough. -/
def boldRunsF : Nat → List Char → List TextElement
  | 0, _ => []
  | fuel + 1, t =>
    match findBold t with
    | none => if t.isEmpty then [] else [.text_run t none]
    | some (b, g, rest) =>
      (if b.isEmpty then [] else [.text_run b none]) ++
        [.text_run g (some boldStyleVal)] ++ boldRunsF fuel rest

/-- `parseTextWithStyles` of markdown-converter.ts. -/
def parseTextWithStyles (t : List Char) : List TextElement :=
  let es := boldRunsF (t.length + 1) t
  if es.isEmpty then [.text_run t none] else es

/-- The link-scanning `while ((match = linkRegex.exec(text)))` loop of
`parseInlineMarkdown`: before-match text (when non-empty) is styled by
`parseTextWithStyles`, the match becomes a `link` element with
`url := group2` and `content := group1`, and the trailing text after
the last match (when non-empty) is styled by `parseTextWithStyles`. -/
def linkRunsF : Nat → List Char → List TextElement
  | 0, _ => []
  | fuel + 1, t =>
    match findLink t with
    | none => if t.isEmpty then [] else parseTextWithStyles t
    | some (b, g1, g2, rest) =>
      (if b.isEmpty then [] else parseTextWithStyles b) ++
        [.link g2 g1] ++ linkRunsF fuel rest

/-- `parseInlineMarkdown` of markdown-converter.ts. -/
def parseInlineMarkdown (t : List Char) : List TextElement :=
  let es := linkRunsF (t.length + 1) t
  if es.isEmpty then [.text_run t none] else es

/-! ## Block builder (nodeToBlock and the create* functions) -/

/-- `createHeadingBlock` of markdown-converter.ts. -/
def createHeadingBlock (level : Nat) (content : List Char) : DocBlock :=
  let elements := parseInlineMarkdown content
  if level = 1 then { block_type := 3, heading1 := some elements }
  else if level = 2 then { block_type := 4, heading2 := some elements }
  else if level = 3 then { block_type := 5, heading3 := some elements }
  else { block_type := 2, text := some [.text_run content (some boldStyleVal)] }

/-- `createTextBlock` of markdown-converter.ts. -/
def createTextBlock (content : List Char) : DocBlock :=
  { block_type := 2, text := some (parseInlineMarkdown content) }

/-- `createCodeBlock` of markdown-converter.ts: note that `style` is
`undefined` (not `{ language: 0 }`) when the language tag is absent
(`language ? {...} : undefined`; the empty string is also falsy). -/
def createCodeBlock (content : List Char) (language : Option (List Char)) : DocBlock :=
  { block_type := 14,
    code := some
      { elements := [.text_run content none],
        style :=
          match language with
          | some l => if l = [] then none else some { language := some (getLanguageCode (some l)) }
          | none => none } }

/-- `createQuoteBlock` of markdown-converter.ts. -/
def createQuoteBlock (content : List Char) : DocBlock :=
  { block_type := 15, quote := some (parseInlineMarkdown content) }

/-- `createDividerBlock` of markdown-converter.ts. -/
def createDividerBlock : DocBlock :=
  { block_type := 22, divider := true }

/-- `createListBlock` of markdown-converter.ts: each item contributes
one unstyled text run of its raw content (no inline styling). -/
def createListBlock (items : List MarkdownNode) (ordered : Bool) : DocBlock :=
  let elements := items.map (fun item => TextElement.text_run item.contentD none)
  if ordered then { block_type := 13, ordered := some elements }
  else { block_type := 12, bullet := some elements }

/-- Column-width accumulation of `createTableBlock`:
`colWidths[i] = max(colWidths[i] || 0, row[i]?.length || 0)` over one
row. -/
def updateWidths : List Nat → List (List Char) → List Nat
  | ws, [] => ws
  | [], c :: cs => c.length :: updateWidths [] cs
  | w :: ws, c :: cs => max w c.length :: updateWidths ws cs

/-- The full column-width pass of `createTableBlock`. -/
def colWidths (rows : List (List (List Char))) : List Nat :=
  rows.foldl updateWidths []

/-- The horizontal rule of `createTableBlock`:
`"+" + colWidths.map(w => "-".repeat(w + 2)).join("+") + "+"`. -/
def sepLine (ws : List Nat) : List Char :=
  '+' :: joinWith '+' (ws.map (fun w => repChar (w + 2) '-')) ++ ['+']

/-- One rendered cell per column:
`" " + (cell || "").padEnd(colWidths[j] || 0) + " "`. -/
def rowCells : List (List Char) → List Nat → List (List Char)
  | [], _ => []
  | c :: cs, [] => (' ' :: padEnd c 0 ++ [' ']) :: rowCells cs []
  | c :: cs, w :: ws => (' ' :: padEnd c w ++ [' ']) :: rowCells cs ws

/-- One rendered row: `"|" + cells.join("|") + "|"`. -/
def rowLine (ws : List Nat) (row : List (List Char)) : List Char :=
  '|' :: joinWith '|' (rowCells row ws) ++ ['|']

/-- The row-emission loop of `createTableBlock`, carrying the row
index: each row line is followed by the rule when its index is 0. -/
def renderRows (ws : List Nat) : Nat → List (List (List Char)) → List (List Char)
  | _, [] => []
  | i, r :: rs =>
    rowLine ws r :: (if i = 0 then [sepLine ws] else []) ++ renderRows ws (i + 1) rs

/-- `createTableBlock` of markdown-converter.ts. -/
def createTableBlock (rows : List (List (List Char))) : Option DocBlock :=
  if rows.isEmpty then none
  else
    let ws := colWidths rows
    let ls := sepLine ws :: renderRows ws 0 rows ++ [sepLine ws]
    some { block_type := 14,
           code := some { elements := [.text_run (joinWith '\n' ls) none],
                          style := some { language := some 0 } } }

/-- `nodeToBlock` of markdown-converter.ts (the `default` arm of the
source's `switch`, reached by nodes of tag `text`, returns `null`; the
heading arm passes `node.level || 1`, so a level of 0 — which the
parser never produces — falls back to 1). -/
def nodeToBlock : MarkdownNode → Option DocBlock
  | .heading level content =>
    some (createHeadingBlock (if level = 0 then 1 else level) content)
  | .paragraph content => some (createTextBlock content)
  | .code language content => some (createCodeBlock content language)
  | .quote content => some (createQuoteBlock content)
  | .divider => some createDividerBlock
  | .list ordered items => some (createListBlock items ordered)
  | .table rows => createTableBlock rows
  | .text _ => none

/-- `nodesToBlocks` of markdown-converter.ts: the `for`/`push` loop. -/
def nodesToBlocks (nodes : List MarkdownNode) : List DocBlock :=
  nodes.foldl
    (fun blocks node =>
      match nodeToBlock node with
      | some b => blocks ++ [b]
      | none => blocks) []

/-! ## Block parser (parseMarkdown and helpers) -/

/-- The heading regex `^(#{1,6})\s+(.+)$` applied to a trimmed line
(as in the source; a trimmed line has no trailing whitespace, so the
greedy `\s+` / `(.+)` split is the maximal-whitespace one).  On success
return (number of leading hashes, group 2). -/
def headingMatch (trimmed : List Char) : Option (Nat × List Char) :=
  let hashes := trimmed.takeWhile (fun c => c == '#')
  let rest := trimmed.dropWhile (fun c => c == '#')
  if 1 ≤ hashes.length ∧ hashes.length ≤ 6 then
    match rest with
    | c :: _ =>
      if isWsChar c then
        let content := rest.dropWhile isWsChar
        if content.isEmpty then none else some (hashes.length, content)
      else none
    | [] => none
  else none

/-- The divider regex `^(---|\*\*\*|___)\s*$` applied to a trimmed
line (which has no trailing whitespace, so it must equal one of the
three markers exactly). -/
def isDividerLine (trimmed : List Char) : Bool :=
  trimmed == "---".data || trimmed == "***".data || trimmed == "___".data

/-- Leading-digits-and-dot test `^\d+\.`. -/
def digitsDotTest (t : List Char) : Bool :=
  !(t.takeWhile Char.isDigit).isEmpty &&
    match t.dropWhile Char.isDigit with
    | '.' :: _ => true
    | _ => false

/-- `isBlockStart` of markdown-converter.ts. -/
def isBlockStart (line : List Char) : Bool :=
  let trimmed := strTrim line
  strStartsWith trimmed ['#'] ||
  strStartsWith trimmed threeTicks ||
  strStartsWith trimmed ['>'] ||
  strStartsWith trimmed ['-'] ||
  strStartsWith trimmed ['*'] ||
  strStartsWith trimmed ['+'] ||
  digitsDotTest trimmed ||
  trimmed.contains '|' ||
  isDividerLine trimmed

/-- The list-item regex `^(\s*)([-*+]|\d+\.)\s+(.*)$` applied to the
raw (untrimmed) line.  On success return (indent length, group 3); the
greedy `\s+` leaves group 3 starting at the first non-whitespace
character after the marker (`.` cannot match a newline and lines
contain none).  The bare test `^(\s*)([-*+]|\d+\.)\s+` succeeds exactly
when this matcher does, since `(.*)$` always matches. -/
def listItemMatch (line : List Char) : Option (Nat × List Char) :=
  let ws := line.takeWhile isWsChar
  let rest := line.dropWhile isWsChar
  let afterMarker : List Char → Option (Nat × List Char) := fun r =>
    match r with
    | c :: _ => if isWsChar c then some (ws.length, r.dropWhile isWsChar) else none
    | [] => none
  match rest with
  | '-' :: r => afterMarker r
  | '*' :: r => afterMarker r
  | '+' :: r => afterMarker r
  | _ =>
    if digitsDotTest rest then
      afterMarker ((rest.dropWhile Char.isDigit).drop 1)
    else none

/-- `isListItem` of markdown-converter.ts. -/
def isListItem (line : List Char) : Bool := (listItemMatch line).isSome

/-- The ordered-marker test `^\s*\d+\.` of `parseList`. -/
def orderedTest (line : List Char) : Bool :=
  digitsDotTest (line.dropWhile isWsChar)

/-- Code-fence collection loop of `parseMarkdown`: consume lines until
one whose trimmed form starts with ```` ``` ````; that closing line is
consumed but not collected (at end of input the `i++` past the end is a
no-op). -/
def collectCode : List (List Char) → List (List Char) × List (List Char)
  | [] => ([], [])
  | l :: ls =>
    if strStartsWith (strTrim l) threeTicks then ([], ls)
    else
      let (c, r) := collectCode ls
      (l :: c, r)

/-- Quote collection loop of `parseMarkdown`: consume contiguous lines
whose trimmed form starts with `>`, collecting
`line.trim().slice(1).trim()` for each. -/
def collectQuote : List (List Char) → List (List Char) × List (List Char)
  | [] => ([], [])
  | l :: ls =>
    if strStartsWith (strTrim l) ['>'] then
      let (q, r) := collectQuote ls
      (strTrim ((strTrim l).drop 1) :: q, r)
    else ([], l :: ls)

/-- Table collection loop of `parseMarkdown`: consume contiguous raw
lines whose trimmed form contains `|`. -/
def collectTable : List (List Char) → List (List Char) × List (List Char)
  | [] => ([], [])
  | l :: ls =>
    if (strTrim l).contains '|' then
      let (t, r) := collectTable ls
      (l :: t, r)
    else ([], l :: ls)

/-- Paragraph collection loop of `parseMarkdown`: consume contiguous
non-blank raw lines that do not start a block. -/
def collectPara : List (List Char) → List (List Char) × List (List Char)
  | [] => ([], [])
  | l :: ls =>
    if strTrim l != [] && !isBlockStart l then
      let (p, r) := collectPara ls
      (l :: p, r)
    else ([], l :: ls)

/-- List-item continuation loop of `parseList`: consume contiguous
non-blank lines that are not themselves list items, collecting each
line trimmed. -/
def collectItemCont : List (List Char) → List (List Char) × List (List Char)
  | [] => ([], [])
  | l :: ls =>
    if strTrim l != [] && !isListItem l then
      let (a, r) := collectItemCont ls
      (strTrim l :: a, r)
    else ([], l :: ls)

/-- The alignment-cell regex `^[-:]+$`. -/
def isAlignCell (c : List Char) : Bool :=
  !c.isEmpty && c.all (fun ch => ch == '-' || ch == ':')

/-- Cell split of one table line: split on `|`, trim each cell, keep
the non-empty ones. -/
def tableCells (line : List Char) : List (List Char) :=
  ((splitPipe line).map strTrim).filter (fun c => !c.isEmpty)

/-- Row parsing of `parseTable`: the non-empty cell lists of all lines,
with the second row removed when all of its cells match `^[-:]+$`. -/
def tableRows (lines : List (List Char)) : List (List (List Char)) :=
  let rows := (lines.map tableCells).filter (fun r => !r.isEmpty)
  match rows with
  | a :: b :: t => if b.all isAlignCell then a :: t else a :: b :: t
  | r => r

/-- `parseTable` of markdown-converter.ts. -/
def parseTable (lines : List (List Char)) : Option MarkdownNode :=
  if lines.length < 2 then none
  else if (tableRows lines).isEmpty then none
  else some (.table (tableRows lines))

/-- The item loop of `parseList`.  Each iteration that continues
consumes at least one line, so fuel `rem.length + 1` is always enough;
the loop ends at a blank-free non-item line or one indented less than
`baseIndent`. -/
def parseListLoop : Nat → Nat → List (List Char) → List MarkdownNode →
    List MarkdownNode × List (List Char)
  | 0, _, rem, acc => (acc, rem)
  | _ + 1, _, [], acc => (acc, [])
  | fuel + 1, baseIndent, l :: ls, acc =>
    if strTrim l = [] then parseListLoop fuel baseIndent ls acc
    else
      match listItemMatch l with
      | none => (acc, l :: ls)
      | some (indent, content) =>
        if indent < baseIndent then (acc, l :: ls)
        else
          let (cont, rest) := collectItemCont ls
          parseListLoop fuel baseIndent rest
            (acc ++ [.text (joinWith ' ' (content :: cont))])

/-- `parseList` of markdown-converter.ts (the first line is the one
that matched the list-item test in `parseMarkdown`). -/
def parseList (line : List Char) (rest : List (List Char)) :
    MarkdownNode × List (List Char) :=
  let baseIndent := (line.takeWhile isWsChar).length
  let ordered := orderedTest line
  let (items, rem) := parseListLoop (rest.length + 2) baseIndent (line :: rest) []
  (.list ordered items, rem)

/-- One iteration of the outer `while (i < lines.length)` loop of
`parseMarkdown`: `none` when the loop exits (`i` past the end),
otherwise the node pushed by this iteration (if any) and the remaining
lines.  The branches appear in the source's order; a line that starts
with `#` but fails the heading regex falls through to the later
branches. -/
def parseStep : List (List Char) → Option (Option MarkdownNode × List (List Char))
  | [] => none
  | line :: rest =>
    let trimmed := strTrim line
    if trimmed = [] then some (none, rest)
    else
      match (if strStartsWith trimmed ['#'] then headingMatch trimmed else none) with
      | some (level, g2) => some (some (.heading level (strTrim g2)), rest)
      | none =>
        if strStartsWith trimmed threeTicks then
          let lang := strTrim (trimmed.drop 3)
          let (codeLines, rest2) := collectCode rest
          some (some (.code (if lang = [] then none else some lang)
            (joinWith '\n' codeLines)), rest2)
        else if isDividerLine trimmed then some (some .divider, rest)
        else if strStartsWith trimmed ['>'] then
          let (quoteLines, rest2) := collectQuote (line :: rest)
          some (some (.quote (joinWith '\n' quoteLines)), rest2)
        else if trimmed.contains '|' then
          let (tableLines, rest2) := collectTable (line :: rest)
          some (parseTable tableLines, rest2)
        else if isListItem line then
          let (node, rest2) := parseList line rest
          some (some node, rest2)
        else
          let (paraLines, rest2) := collectPara (line :: rest)
          some ((if paraLines.isEmpty then none
                 else some (.paragraph (strTrim (joinWith ' ' paraLines)))), rest2)

/-- The outer loop of `parseMarkdown`, iterated with fuel.  The source
loop is not total (see the C1 theorem below); on inputs on which it
terminates, every iteration consumes at least one line, so fuel
`lines.length + 1` reproduces it exactly. -/
def parseMarkdownLoop : Nat → List (List Char) → List MarkdownNode → List MarkdownNode
  | 0, _, acc => acc
  | fuel + 1, rem, acc =>
    match parseStep rem with
    | none => acc
    | some (node, rest) => parseMarkdownLoop fuel rest (acc ++ node.toList)

/-- `parseMarkdown` of markdown-converter.ts. -/
def parseMarkdown (markdown : List Char) : List MarkdownNode :=
  let lines := splitNl markdown
  parseMarkdownLoop (lines.length + 1) lines []

/-- `convertMarkdownToBlocks` of markdown-converter.ts: the conversion
entry point. -/
def convertMarkdownToBlocks (markdown : List Char) : List DocBlock :=
  nodesToBlocks (parseMarkdown markdown)

/-! ## Preprocessor (preprocessMarkdown) -/

/-- `replace(/\r\n/g, "\n")`. -/
def replCrNl : List Char → List Char
  | '\r' :: '\n' :: r => '\n' :: replCrNl r
  | c :: r => c :: replCrNl r
  | [] => []

/-- `replace(/\r/g, "\n")`. -/
def replCr (s : List Char) : List Char :=
  s.map (fun c => if c == '\r' then '\n' else c)

/-- `replace(/\n\n\n+/g, "\n\n")`: every maximal run of three or more
newlines becomes two.  Fuel: every step consumes at least one
character. -/
def collapseNlF : Nat → List Char → List Char
  | 0, s => s
  | _ + 1, [] => []
  | fuel + 1, '\n' :: '\n' :: '\n' :: r =>
    '\n' :: '\n' :: collapseNlF fuel (r.dropWhile (fun c => c == '\n'))
  | fuel + 1, c :: r => c :: collapseNlF fuel r

def collapseNl (s : List Char) : List Char := collapseNlF (s.length + 1) s

/-- `replace(/^(#{1,6}.*)$/gm, "$1\n")`: since `.*` absorbs the rest of
the line, every line whose first character is `#` matches, and the
replacement appends one newline to it. -/
def addHeadingNl (s : List Char) : List Char :=
  joinWith '\n'
    ((splitNl s).map (fun l => if strStartsWith l ['#'] then l ++ ['\n'] else l))

/-- `replace(/([^\n])```/g, "$1\n```")`: a newline is inserted between
a non-newline character and an immediately following fence; scanning
resumes after the fence. -/
def fenceNlBefore : List Char → List Char
  | c :: t1 :: t2 :: t3 :: r =>
    if c != '\n' && t1 == btChar && t2 == btChar && t3 == btChar then
      c :: '\n' :: t1 :: t2 :: t3 :: fenceNlBefore r
    else c :: fenceNlBefore (t1 :: t2 :: t3 :: r)
  | c :: r => c :: fenceNlBefore r
  | [] => []

/-- `replace(/```([^\n])/g, "```\n$1")`: a newline is inserted between
a fence and an immediately following non-newline character; scanning
resumes after that character. -/
def fenceNlAfter : List Char → List Char
  | t1 :: t2 :: t3 :: c :: r =>
    if t1 == btChar && t2 == btChar && t3 == btChar && c != '\n' then
      t1 :: t2 :: t3 :: '\n' :: c :: fenceNlAfter r
    else t1 :: fenceNlAfter (t2 :: t3 :: c :: r)
  | c :: r => c :: fenceNlAfter r
  | [] => []

/-- `preprocessMarkdown` of markdown-converter.ts: the six chained
`replace` calls. -/
def preprocessMarkdown (markdown : List Char) : List Char :=
  fenceNlAfter (fenceNlBefore (addHeadingNl (collapseNl (replCr (replCrNl markdown)))))

/-! ## Reference definitions written from the spec's words

These follow §4.4 (two-pass inline stylizer) and §4.3 (table
rendering) of the specification; the refinement claims compare them
with the source embeddings above. -/

/-- Spec §4.4 pass 2, segmented view: the ordered bold matches of a
span as (text-before, bold-group) pairs, plus the trailing text after
the last match. -/
def boldSegsF : Nat → List Char → List (List Char × List Char) × List Char
  | 0, t => ([], t)
  | fuel + 1, t =>
    match findBold t with
    | none => ([], t)
    | some (b, g, rest) =>
      let (s, trail) := boldSegsF fuel rest
      ((b, g) :: s, trail)

/-- Elements assembled from a segmented bold scan: text outside bold
matches becomes unstyled runs, text inside becomes bold runs. -/
def boldSegsRuns (p : List (List Char × List Char) × List Char) : List TextElement :=
  (p.1.flatMap (fun sg =>
    (if sg.1.isEmpty then [] else [.text_run sg.1 none]) ++
      [.text_run sg.2 (some boldStyleVal)])) ++
    (if p.2.isEmpty then [] else [.text_run p.2 none])

/-- Spec §4.4 pass 2 on one plain-text span. -/
def parseTextSpec (t : List Char) : List TextElement :=
  let es := boldSegsRuns (boldSegsF (t.length + 1) t)
  if es.isEmpty then [.text_run t none] else es

/-- Spec §4.4 pass 1, segmented view: the ordered link matches as
(span-before, group1, group2) triples, plus the trailing span. -/
def linkSegsF : Nat → List Char → List (List Char × List Char × List Char) × List Char
  | 0, t => ([], t)
  | fuel + 1, t =>
    match findLink t with
    | none => ([], t)
    | some (b, g1, g2, rest) =>
      let (s, trail) := linkSegsF fuel rest
      ((b, g1, g2) :: s, trail)

/-- Elements assembled from a segmented link scan: each non-empty span
goes through pass 2, each match becomes `Link{url := group2, content
:= group1}`. -/
def linkSegsRuns (p : List (List Char × List Char × List Char) × List Char) :
    List TextElement :=
  (p.1.flatMap (fun sg =>
    (if sg.1.isEmpty then [] else parseTextSpec sg.1) ++ [.link sg.2.2 sg.2.1])) ++
    (if p.2.isEmpty then [] else parseTextSpec p.2)

/-- Spec §4.4 `styleInline`: two passes, then the never-empty
fallback run carrying the original text. -/
def styleInlineSpec (t : List Char) : List TextElement :=
  let es := linkSegsRuns (linkSegsF (t.length + 1) t)
  if es.isEmpty then [.text_run t none] else es

/-- Spec §4.3: `length(row[j] or "")`. -/
def lenAt (row : List (List Char)) (j : Nat) : Nat := (row.getD j []).length

/-- The number of columns: the maximal row length. -/
def numCols (rows : List (List (List Char))) : Nat :=
  rows.foldr (fun r m => max r.length m) 0

/-- Spec §4.3: `colWidths[j] = max over all rows of length(row[j] or
"")`, for `j` below the number of columns. -/
def colWidthsSpec (rows : List (List (List Char))) : List Nat :=
  (List.range (numCols rows)).map
    (fun j => rows.foldr (fun r m => max (lenAt r j) m) 0)

/-- Spec §4.3 rendering: the rule, each row, the rule again
immediately after the header row (index 0) and once more after the
final row, newline-joined. -/
def renderTableSpec (rows : List (List (List Char))) : List Char :=
  let ws := colWidthsSpec rows
  match rows with
  | [] => joinWith '\n' [sepLine ws, sepLine ws]
  | r0 :: rs =>
    joinWith '\n'
      (sepLine ws :: rowLine ws r0 :: sepLine ws :: (rs.map (rowLine ws) ++ [sepLine ws]))


/-! ## Lemmas -/

theorem lenTakeDrop (p : Char → Bool) (l : List Char) :
    (l.takeWhile p).length + (l.dropWhile p).length = l.length := by
  rw [← List.length_append, List.takeWhile_append_dropWhile]

theorem tryBold_rest_lt {t g r : List Char} (h : tryBold t = some (g, r)) :
    r.length < t.length := by
  unfold tryBold at h
  repeat split at h
  all_goals simp_all
  rename_i a cs b r2 heq
  have hl := lenTakeDrop (fun c => c != '*') cs
  rw [heq] at hl
  simp at hl
  omega

theorem tryLink_rest_lt {t g1 g2 r : List Char} (h : tryLink t = some (g1, g2, r)) :
    r.length < t.length := by
  unfold tryLink at h
  repeat split at h
  all_goals simp_all
  rename_i a cs b cs2 heq1 d r2 heq2
  have hl := lenTakeDrop (fun c => c != ']') cs
  have hl2 := lenTakeDrop (fun c => c != ')') cs2
  rw [heq1] at hl
  rw [heq2] at hl2
  simp at hl hl2
  omega

theorem findBold_rest_lt {t b g r : List Char} (h : findBold t = some (b, g, r)) :
    r.length < t.length := by
  induction t generalizing b with
  | nil => exact Option.noConfusion h
  | cons c cs ih =>
    unfold findBold at h
    split at h
    next g2 r2 heq =>
      simp only [Option.some.injEq, Prod.mk.injEq] at h
      obtain ⟨hb, hg, hr⟩ := h
      subst hg hr
      have := tryBold_rest_lt heq
      simpa using this
    next =>
      split at h
      next b2 g2 r2 heq =>
        simp only [Option.some.injEq, Prod.mk.injEq] at h
        obtain ⟨hb, hg, hr⟩ := h
        subst hg hr
        have := ih heq
        simp only [List.length_cons]
        omega
      next => exact Option.noConfusion h

theorem findLink_rest_lt {t b g1 g2 r : List Char}
    (h : findLink t = some (b, g1, g2, r)) : r.length < t.length := by
  induction t generalizing b with
  | nil => exact Option.noConfusion h
  | cons c cs ih =>
    unfold findLink at h
    split at h
    next ga gb rr heq =>
      simp only [Option.some.injEq, Prod.mk.injEq] at h
      obtain ⟨hb, hg1, hg2, hr⟩ := h
      subst hg1 hg2 hr
      have := tryLink_rest_lt heq
      simpa using this
    next =>
      split at h
      next b2 ga gb rr heq =>
        simp only [Option.some.injEq, Prod.mk.injEq] at h
        obtain ⟨hb, hg1, hg2, hr⟩ := h
        subst hg1 hg2 hr
        have := ih heq
        simp only [List.length_cons]
        omega
      next => exact Option.noConfusion h

theorem boldRunsF_eq_segs (fuel : Nat) : ∀ t : List Char, t.length < fuel →
    boldRunsF fuel t = boldSegsRuns (boldSegsF fuel t) := by
  induction fuel with
  | zero => intro t ht; omega
  | succ k ih =>
    intro t ht
    unfold boldRunsF boldSegsF
    cases hfb : findBold t with
    | none => simp [boldSegsRuns]
    | some x =>
      obtain ⟨b, g, rest⟩ := x
      have hlt : rest.length < k := by
        have := findBold_rest_lt hfb
        omega
      rcases hseg : boldSegsF k rest with ⟨s, trail⟩
      have := ih rest hlt
      rw [hseg] at this
      simp [this, hseg, boldSegsRuns, List.append_assoc]

theorem parseTextWithStyles_eq_spec (t : List Char) :
    parseTextWithStyles t = parseTextSpec t := by
  unfold parseTextWithStyles parseTextSpec
  rw [boldRunsF_eq_segs (t.length + 1) t (by omega)]

theorem linkRunsF_eq_segs (fuel : Nat) : ∀ t : List Char, t.length < fuel →
    linkRunsF fuel t = linkSegsRuns (linkSegsF fuel t) := by
  induction fuel with
  | zero => intro t ht; omega
  | succ k ih =>
    intro t ht
    unfold linkRunsF linkSegsF
    cases hfl : findLink t with
    | none => simp [linkSegsRuns, parseTextWithStyles_eq_spec]
    | some x =>
      obtain ⟨b, g1, g2, rest⟩ := x
      have hlt : rest.length < k := by
        have := findLink_rest_lt hfl
        omega
      rcases hseg : linkSegsF k rest with ⟨s, trail⟩
      have := ih rest hlt
      rw [hseg] at this
      simp [this, hseg, linkSegsRuns, parseTextWithStyles_eq_spec, List.append_assoc]

theorem updateWidths_length (row : List (List Char)) :
    ∀ ws : List Nat, (updateWidths ws row).length = max ws.length row.length := by
  induction row with
  | nil => intro ws; simp [updateWidths]
  | cons c cs ih =>
    intro ws
    cases ws with
    | nil => simp [updateWidths, ih]
    | cons w ws => simp [updateWidths, ih]; omega

theorem updateWidths_getD (row : List (List Char)) :
    ∀ (ws : List Nat) (j : Nat),
      (updateWidths ws row).getD j 0 = max (ws.getD j 0) (lenAt row j) := by
  induction row with
  | nil => intro ws j; simp [updateWidths, lenAt]
  | cons c cs ih =>
    intro ws j
    cases ws with
    | nil =>
      cases j with
      | zero => simp [updateWidths, lenAt]
      | succ j => simpa [updateWidths, lenAt] using ih [] j
    | cons w ws =>
      cases j with
      | zero => simp [updateWidths, lenAt]
      | succ j => simpa [updateWidths, lenAt] using ih ws j

theorem foldl_updateWidths_length (rows : List (List (List Char))) :
    ∀ ws : List Nat, (rows.foldl updateWidths ws).length = max ws.length (numCols rows) := by
  induction rows with
  | nil => intro ws; simp [numCols]
  | cons r rs ih =>
    intro ws
    simp only [List.foldl_cons, numCols, List.foldr_cons]
    rw [ih (updateWidths ws r), updateWidths_length]
    show _ = max ws.length (max r.length (numCols rs))
    omega

theorem foldl_updateWidths_getD (rows : List (List (List Char))) (j : Nat) :
    ∀ ws : List Nat, (rows.foldl updateWidths ws).getD j 0 =
      max (ws.getD j 0) (rows.foldr (fun r m => max (lenAt r j) m) 0) := by
  induction rows with
  | nil => intro ws; simp
  | cons r rs ih =>
    intro ws
    simp only [List.foldl_cons, List.foldr_cons]
    rw [ih (updateWidths ws r), updateWidths_getD]
    omega

theorem colWidths_eq_spec (rows : List (List (List Char))) :
    colWidths rows = colWidthsSpec rows := by
  have hlen : (colWidths rows).length = numCols rows := by
    unfold colWidths
    rw [foldl_updateWidths_length]
    simp
  have hlen2 : (colWidthsSpec rows).length = numCols rows := by
    simp [colWidthsSpec]
  apply List.ext_getElem (by rw [hlen, hlen2])
  intro i h1 h2
  have hspec : (colWidthsSpec rows)[i] = rows.foldr (fun r m => max (lenAt r i) m) 0 := by
    simp [colWidthsSpec]
  rw [hspec, ← List.getD_eq_getElem (colWidths rows) 0 h1]
  unfold colWidths
  rw [foldl_updateWidths_getD]
  simp

theorem renderRows_succ (ws : List Nat) (rs : List (List (List Char))) :
    ∀ i : Nat, renderRows ws (i + 1) rs = rs.map (rowLine ws) := by
  induction rs with
  | nil => intro i; simp [renderRows]
  | cons r rsx ih =>
    intro i
    simp [renderRows, ih]

theorem nodesToBlocks_go (nodes : List MarkdownNode) :
    ∀ acc : List DocBlock,
      nodes.foldl
        (fun blocks node =>
          match nodeToBlock node with
          | some b => blocks ++ [b]
          | none => blocks) acc
      = acc ++ nodes.filterMap nodeToBlock := by
  induction nodes with
  | nil => intro acc; simp
  | cons n ns ih =>
    intro acc
    simp only [List.foldl_cons, List.filterMap_cons]
    cases h : nodeToBlock n with
    | none => simp [h, ih]
    | some b => simp [h, ih]

theorem nodesToBlocks_eq_filterMap (nodes : List MarkdownNode) :
    nodesToBlocks nodes = nodes.filterMap nodeToBlock := by
  unfold nodesToBlocks
  simpa using nodesToBlocks_go nodes []

theorem parseInlineMarkdown_ne_nil (t : List Char) : parseInlineMarkdown t ≠ [] := by
  unfold parseInlineMarkdown
  by_cases h : (linkRunsF (t.length + 1) t).isEmpty
  · simp [h]
  · simp only [h]
    simpa [List.isEmpty_iff] using h

/-! ## Claim theorems -/

/-- C1: the claim says the conversion entry point terminates on every
input because the parser's forward scan always makes progress.  It is
false: on the line `#foo` (a heading marker without the space the
heading regex requires) no branch of the loop body consumes the line —
the heading regex fails, no other construct matches, and the paragraph
loop collects nothing because `isBlockStart` is true — so one loop
iteration returns the unchanged line list with no node, and the loop
therefore never reaches the end of input: iterating it any number of
times leaves the accumulator untouched.  The source `parseMarkdown`
hangs on this input. -/
theorem claim_C1_nontermination :
    parseStep (splitNl ( "#foo").data) = some (none, splitNl ( "#foo").data) ∧
    ∀ (fuel : Nat) (acc : List MarkdownNode),
      parseMarkdownLoop fuel (splitNl ( "#foo").data) acc = acc := by
  refine ⟨rfl, ?_⟩
  intro fuel
  induction fuel with
  | zero => intro acc; rfl
  | succ k ih =>
    intro acc
    have hstep : parseStep (splitNl ( "#foo").data) =
        some (none, splitNl ( "#foo").data) := rfl
    rw [parseMarkdownLoop, hstep]
    simpa using ih acc

/-- C2: heading levels 1–3 map to heading blocks 3/4/5 with a single
unstyled run, and levels 4–6 map to a Text block (type 2) with a single
bold run of the raw content. -/
theorem claim_C2_heading_mapping :
    convertMarkdownToBlocks ( "# X").data =
      [{ block_type := 3, heading1 := some [.text_run ( "X").data none] }] ∧
    convertMarkdownToBlocks ( "## X").data =
      [{ block_type := 4, heading2 := some [.text_run ( "X").data none] }] ∧
    convertMarkdownToBlocks ( "### X").data =
      [{ block_type := 5, heading3 := some [.text_run ( "X").data none] }] ∧
    convertMarkdownToBlocks ( "#### X").data =
      [{ block_type := 2, text := some [.text_run ( "X").data (some { bold := some true })] }] ∧
    convertMarkdownToBlocks ( "##### X").data =
      [{ block_type := 2, text := some [.text_run ( "X").data (some { bold := some true })] }] ∧
    convertMarkdownToBlocks ( "###### X").data =
      [{ block_type := 2, text := some [.text_run ( "X").data (some { bold := some true })] }] :=
  ⟨by decide, by decide, by decide, by decide, by decide, by decide⟩

/-- C3: the source inline stylizer equals the two-pass reference
definition written from the spec (links extracted left to right, every
non-link span scanned for bold, empty input degrading to a single run
of the original text), and its result is never empty. -/
theorem claim_C3_inline_stylizer (t : List Char) :
    parseInlineMarkdown t = styleInlineSpec t ∧ parseInlineMarkdown t ≠ [] := by
  constructor
  · unfold parseInlineMarkdown styleInlineSpec
    rw [linkRunsF_eq_segs (t.length + 1) t (by omega)]
  · exact parseInlineMarkdown_ne_nil t

/-- C3 witness: the equivalence and non-emptiness at a concrete input
containing a link and a bold span. -/
theorem claim_C3_witness :
    parseInlineMarkdown ( "a [b](c) **d**").data = styleInlineSpec ( "a [b](c) **d**").data ∧
    parseInlineMarkdown ( "a [b](c) **d**").data ≠ [] :=
  claim_C3_inline_stylizer ( "a [b](c) **d**").data

/-- C4: the claim says the preprocessor is idempotent.  It is false:
the heading rule `^(#{1,6}.*)$ ↦ $1\n` appends one newline to every
line starting with `#` on every pass, so `# a` goes to `# a\n` and then
to `# a\n\n`. -/
theorem claim_C4_preprocess_not_idempotent :
    preprocessMarkdown (preprocessMarkdown ( "# a").data) ≠
      preprocessMarkdown ( "# a").data ∧
    preprocessMarkdown ( "# a").data = ( "# a\n").data ∧
    preprocessMarkdown (preprocessMarkdown ( "# a").data) = ( "# a\n\n").data :=
  ⟨by decide, by decide, by decide⟩

/-- C5 counterexample: the claim says a table whose rows, after
alignment-row removal, number fewer than 2 produces no output block,
and in particular that a two-line table whose second line is the
alignment row yields no block.  In fact that very input yields one Code
block. -/
theorem claim_C5_counterexample :
    convertMarkdownToBlocks ( "| A | B |\n|---|---|").data ≠ [] := by
  decide

/-- C5 amended: a table group is dropped exactly when fewer than two
table lines were collected or no non-empty cell row was parsed; a table
node with at least one parsed row (even a single row left after
alignment-row removal) produces exactly one Code block, as the two-line
example shows. -/
theorem claim_C5_amended :
    (∀ lines : List (List Char),
      parseTable lines = none ↔ lines.length < 2 ∨ tableRows lines = []) ∧
    (∀ rows : List (List (List Char)), createTableBlock rows = none ↔ rows = []) ∧
    convertMarkdownToBlocks ( "| A | B |\n|---|---|").data =
      [{ block_type := 14,
         code := some
           { elements := [.text_run ( "+---+---+\n| A | B |\n+---+---+\n+---+---+").data none],
             style := some { language := some 0 } } }] := by
  refine ⟨?_, ?_, by decide⟩
  · intro lines
    unfold parseTable
    by_cases h1 : lines.length < 2
    · simp [h1]
    · by_cases h2 : (tableRows lines).isEmpty
      · simp [h1, h2, List.isEmpty_iff.mp h2]
      · simp only [h1, h2, if_false]
        simp [h1, List.isEmpty_iff] at h2 ⊢
        exact h2
  · intro rows
    unfold createTableBlock
    by_cases h : rows.isEmpty
    · simp [h, List.isEmpty_iff.mp h]
    · simp only [h, if_false]
      simp [List.isEmpty_iff] at h ⊢
      exact h

/-- C5 witness: a single collected table line is dropped. -/
theorem claim_C5_witness :
    parseTable [( "| A |").data] = none :=
  (claim_C5_amended.1 [( "| A |").data]).mpr (Or.inl (by decide))

/-- C6 counterexample: the claim says a fenced code block with an
absent language tag yields a Code block whose language style code is 0.
In fact the source passes `undefined` for the style in that case, so
the emitted block carries no language style at all. -/
theorem claim_C6_counterexample :
    (convertMarkdownToBlocks ( "```\nx\n```").data).map
        (fun b => b.code.map (fun cb => cb.style)) ≠
      [some (some { language := some 0 })] := by
  decide

/-- C6 amended: an unknown language tag resolves to code 0 and the
block carries `style.language = 0`; an absent tag yields a Code block
with no language style field at all; resolution is case-insensitive
(tags equal up to ASCII case resolve to the same code), and an absent
tag resolves to 0. -/
theorem claim_C6_amended :
    convertMarkdownToBlocks ( "```zzzzz\nx\n```").data =
      [{ block_type := 14,
         code := some
           { elements := [.text_run ( "x").data none],
             style := some { language := some 0 } } }] ∧
    convertMarkdownToBlocks ( "```\nx\n```").data =
      [{ block_type := 14,
         code := some { elements := [.text_run ( "x").data none], style := none } }] ∧
    (∀ l1 l2 : List Char, toLowerL l1 = toLowerL l2 →
      getLanguageCode (some l1) = getLanguageCode (some l2)) ∧
    getLanguageCode none = 0 := by
  refine ⟨by decide, by decide, ?_, rfl⟩
  intro l1 l2 h
  unfold getLanguageCode
  have hlen : l1.length = l2.length := by
    have := congrArg List.length h
    simpa [toLowerL] using this
  by_cases h1 : l1 = []
  · subst h1
    have h2 : l2 = [] := by cases l2 <;> simp_all
    simp [h2]
  · have h2 : l2 ≠ [] := by
      intro hh
      subst hh
      cases l1 <;> simp_all
    simp only [h1, h2, if_false]
    unfold lookupLang
    rw [h]

/-- C6 witness: a tag differing only in case resolves identically. -/
theorem claim_C6_witness :
    getLanguageCode (some ( "JS").data) = getLanguageCode (some ( "js").data) :=
  claim_C6_amended.2.2.1 ( "JS").data ( "js").data (by decide)

/-- C7: a three-item bullet list converts to one Bullet block (type 12)
whose elements are the three verbatim unstyled runs, and bold markup
inside an item stays literal unstyled text. -/
theorem claim_C7_list_literalness :
    convertMarkdownToBlocks ( "- one\n- two\n- three").data =
      [{ block_type := 12,
         bullet := some
           [.text_run ( "one").data none, .text_run ( "two").data none,
            .text_run ( "three").data none] }] ∧
    convertMarkdownToBlocks ( "- has **bold** text").data =
      [{ block_type := 12,
         bullet := some [.text_run ( "has **bold** text").data none] }] :=
  ⟨by decide, by decide⟩

/-- C8: for every non-empty row list the table renderer emits exactly
the spec's ASCII layout (column widths are the per-column maxima, the
rule line appears first, after the header row and after the last row),
as a Code block with language 0; and the concrete §8 example renders to
its stated string. -/
theorem claim_C8_table_rendering :
    (∀ rows : List (List (List Char)), rows ≠ [] →
      createTableBlock rows = some
        { block_type := 14,
          code := some
            { elements := [.text_run (renderTableSpec rows) none],
              style := some { language := some 0 } } }) ∧
    convertMarkdownToBlocks ( "| A | BB |\n|---|----|\n| 1 | 22 |").data =
      [{ block_type := 14,
         code := some
           { elements :=
               [.text_run ( "+---+----+\n| A | BB |\n+---+----+\n| 1 | 22 |\n+---+----+").data none],
             style := some { language := some 0 } } }] := by
  refine ⟨?_, by decide⟩
  intro rows h
  obtain ⟨r0, rs, rfl⟩ := List.exists_cons_of_ne_nil h
  unfold createTableBlock renderTableSpec
  rw [colWidths_eq_spec]
  simp [renderRows, renderRows_succ]

/-- C8 witness: the universal layout statement applied to the §8 rows. -/
theorem claim_C8_witness :
    createTableBlock [[( "A").data, ( "BB").data], [( "1").data, ( "22").data]] =
      some
        { block_type := 14,
          code := some
            { elements :=
                [.text_run
                  (renderTableSpec [[( "A").data, ( "BB").data], [( "1").data, ( "22").data]])
                  none],
              style := some { language := some 0 } } } :=
  claim_C8_table_rendering.1 _ (by decide)

/-- C9: every block emitted by `nodesToBlocks` has its `block_type` in
the fixed emission vocabulary {2,3,4,5,12,13,14,15,22}, which is itself
contained in the supported-type table of docx-blocks.ts. -/
theorem claim_C9_emission_vocabulary :
    (∀ (nodes : List MarkdownNode) (b : DocBlock), b ∈ nodesToBlocks nodes →
      b.block_type ∈ ([2, 3, 4, 5, 12, 13, 14, 15, 22] : List Nat)) ∧
    ([2, 3, 4, 5, 12, 13, 14, 15, 22] : List Nat) ⊆ SUPPORTED_BLOCK_TYPES := by
  refine ⟨?_, by decide⟩
  intro nodes b hb
  rw [nodesToBlocks_eq_filterMap] at hb
  obtain ⟨n, -, hn⟩ := List.mem_filterMap.mp hb
  cases n with
  | heading level content =>
    simp only [nodeToBlock, Option.some.injEq] at hn
    subst hn
    unfold createHeadingBlock
    repeat' split
    all_goals simp
  | paragraph content =>
    simp only [nodeToBlock, Option.some.injEq] at hn
    subst hn
    simp [createTextBlock]
  | code language content =>
    simp only [nodeToBlock, Option.some.injEq] at hn
    subst hn
    simp [createCodeBlock]
  | quote content =>
    simp only [nodeToBlock, Option.some.injEq] at hn
    subst hn
    simp [createQuoteBlock]
  | divider =>
    simp only [nodeToBlock, Option.some.injEq] at hn
    subst hn
    simp [createDividerBlock]
  | list ordered items =>
    simp only [nodeToBlock, Option.some.injEq] at hn
    subst hn
    unfold createListBlock
    split <;> simp
  | table rows =>
    simp only [nodeToBlock] at hn
    unfold createTableBlock at hn
    split at hn
    · exact Option.noConfusion hn
    · simp only [Option.some.injEq] at hn
      subst hn
      simp
  | text content =>
    simp only [nodeToBlock] at hn
    exact Option.noConfusion hn

/-- C9 witness: the invariant at a concrete node list. -/
theorem claim_C9_witness :
    ({ block_type := 22, divider := true } : DocBlock).block_type ∈
      ([2, 3, 4, 5, 12, 13, 14, 15, 22] : List Nat) :=
  claim_C9_emission_vocabulary.1 [MarkdownNode.divider] _ (by decide)

/-- C10: `nodesToBlocks` is order-preserving with at most one block per
node (it is the `filterMap` of `nodeToBlock`, so output length is at
most input length); heading, paragraph, code, quote, divider and list
nodes each contribute exactly one block, and a table node contributes a
block exactly when its parsed row list is non-empty. -/
theorem claim_C10_order_and_multiplicity :
    (∀ nodes : List MarkdownNode, nodesToBlocks nodes = nodes.filterMap nodeToBlock) ∧
    (∀ nodes : List MarkdownNode, (nodesToBlocks nodes).length ≤ nodes.length) ∧
    (∀ (level : Nat) (content : List Char),
      (nodeToBlock (.heading level content)).isSome = true) ∧
    (∀ content : List Char, (nodeToBlock (.paragraph content)).isSome = true) ∧
    (∀ (language : Option (List Char)) (content : List Char),
      (nodeToBlock (.code language content)).isSome = true) ∧
    (∀ content : List Char, (nodeToBlock (.quote content)).isSome = true) ∧
    (nodeToBlock .divider).isSome = true ∧
    (∀ (ordered : Bool) (items : List MarkdownNode),
      (nodeToBlock (.list ordered items)).isSome = true) ∧
    (∀ rows : List (List (List Char)),
      (nodeToBlock (.table rows)).isSome = true ↔ rows ≠ []) := by
  refine ⟨nodesToBlocks_eq_filterMap, ?_, fun _ _ => rfl, fun _ => rfl, fun _ _ => rfl,
    fun _ => rfl, rfl, fun _ _ => rfl, ?_⟩
  · intro nodes
    rw [nodesToBlocks_eq_filterMap]
    exact List.length_filterMap_le _ _
  · intro rows
    simp only [nodeToBlock]
    unfold createTableBlock
    by_cases h : rows.isEmpty
    · simp [h, List.isEmpty_iff.mp h]
    · constructor
      · intro _
        simpa [List.isEmpty_iff] using h
      · intro _
        simp [h]

/-- C10 witness: a table node with one parsed row contributes a
block. -/
theorem claim_C10_witness :
    (nodeToBlock (.table [[( "A").data]])).isSome = true :=
  (claim_C10_order_and_multiplicity.2.2.2.2.2.2.2.2 [[( "A").data]]).mpr (by decide)
